import Mathlib

/-
Verification of the hyper-parameter search core described by the spec of
vaddlo/bit-of-data-science-and-scikit-learn.

The repository contains a single notebook (src/notebooks/HyperparamTuning.ipynb)
that calls GridSearchCV and RandomizedSearchCV; the search engine itself is not
part of the repository.  The notebook does, however, record the engine outputs
(cv_results_ params tuples, mean_test_score arrays, rank_test_score arrays,
best_params_), and those recorded outputs are transcribed below verbatim as the
source-of-truth data.  The operational definitions are modelled from the spec;
where the spec and the recorded outputs disagree, the recorded outputs win.

Numeric conventions: decimal literals from the notebook are transcribed in
fixed-point as integers; the scale used by each transcription is stated at its
definition.  Order and equality are invariant under this encoding, and every
statement proved below only uses order and equality of these numbers.
-/

namespace HyperSearch

/-- Parameter value: a string (kernel names, class_weight), a fixed-point
decimal number, or the Python None value (class_weight). -/
inductive PValue where
  | str : String → PValue
  | num : Int → PValue
  | null : PValue
deriving DecidableEq

/-- Configuration: an ordered list of (parameter name, value) bindings,
one binding per declared parameter. -/
abbrev Config := List (String × PValue)

/-- Discrete sub-grid: an ordered list of (parameter name, finite value list)
declarations. -/
abbrev SubGrid := List (String × List PValue)

/-- Grid parameter space: a list of sub-grids, unioned. -/
abbrev ParamGrid := List SubGrid

/-- Lexicographic comparison of character lists by code point, computable by
kernel reduction (the library order on String does not reduce in the kernel). -/
def charsLeB : List Char → List Char → Bool
  | [], _ => true
  | _ :: _, [] => false
  | a :: as, b :: bs =>
      if a.toNat < b.toNat then true
      else if b.toNat < a.toNat then false
      else charsLeB as bs

/-- Lexicographic order on parameter names, matching the sorted() order Python
applies to ASCII parameter names. -/
def nameLe (a b : String) : Bool := charsLeB a.data b.data

/-- Insert one named entry into a name-sorted list. -/
def insertByName {β : Type} (p : String × β) : List (String × β) → List (String × β)
  | [] => [p]
  | q :: rest => if nameLe p.1 q.1 then p :: q :: rest else q :: insertByName p rest

/-- Insertion sort of named entries by parameter name. -/
def sortByName {β : Type} : List (String × β) → List (String × β)
  | [] => []
  | p :: rest => insertByName p (sortByName rest)

/-- Cross-product of the value lists of a sub-grid, taken in the given
parameter order, with the last parameter varying fastest (row-major). -/
def subGridCandidates : SubGrid → List Config
  | [] => [[]]
  | (n, vs) :: rest =>
      vs.flatMap fun v => (subGridCandidates rest).map fun c => (n, v) :: c

/-- Modelled from the spec: the grid-mode Candidate Generator (spec 4.2); the
engine behind GridSearchCV is not in the repository.  Sub-grids are expanded in
declaration order; within a sub-grid the parameters are iterated in ascending
name order with the last (greatest-named) parameter varying fastest, which is
the order the recorded cv_results_ params tuples of the notebook exhibit. -/
def gridCandidates (g : ParamGrid) : List Config :=
  g.flatMap fun sg => subGridCandidates (sortByName sg)

/-- Alternative generator following the literal words of the spec (spec 4.2):
within a sub-grid the parameters are iterated in declaration order with the
last-declared parameter varying fastest.  Kept for comparison against the
recorded notebook outputs. -/
def gridCandidatesDecl (g : ParamGrid) : List Config :=
  g.flatMap fun sg => subGridCandidates sg

/-- Canonical form of a Configuration: bindings sorted by parameter name, so
that configurations can be compared by declared-parameter content regardless
of binding order. -/
def canonConfig (c : Config) : Config := sortByName c

/-- Grid parameter space of the notebook (cell defining tuned_parameters),
in source declaration order: first sub-grid kernel, gamma, C; second sub-grid
kernel, C.  Numbers are fixed-point at scale 10^4 (C = 1 is 10000,
gamma = 0.001 is 10). -/
def tunedParameters : ParamGrid :=
  [ [ ("kernel", [PValue.str "rbf"]),
      ("gamma", [PValue.num 10, PValue.num 1]),
      ("C", [PValue.num 10000, PValue.num 100000, PValue.num 1000000, PValue.num 10000000]) ],
    [ ("kernel", [PValue.str "linear"]),
      ("C", [PValue.num 10000, PValue.num 100000, PValue.num 1000000, PValue.num 10000000]) ] ]

/-- Recorded cv_results_ params tuple of the grid run (notebook output),
12 configurations in recorded order, bindings in the recorded key order
C, gamma, kernel.  Numbers fixed-point at scale 10^4. -/
def notebookGridParams : List Config :=
  [ [("C", PValue.num 10000), ("gamma", PValue.num 10), ("kernel", PValue.str "rbf")],
    [("C", PValue.num 10000), ("gamma", PValue.num 1), ("kernel", PValue.str "rbf")],
    [("C", PValue.num 100000), ("gamma", PValue.num 10), ("kernel", PValue.str "rbf")],
    [("C", PValue.num 100000), ("gamma", PValue.num 1), ("kernel", PValue.str "rbf")],
    [("C", PValue.num 1000000), ("gamma", PValue.num 10), ("kernel", PValue.str "rbf")],
    [("C", PValue.num 1000000), ("gamma", PValue.num 1), ("kernel", PValue.str "rbf")],
    [("C", PValue.num 10000000), ("gamma", PValue.num 10), ("kernel", PValue.str "rbf")],
    [("C", PValue.num 10000000), ("gamma", PValue.num 1), ("kernel", PValue.str "rbf")],
    [("C", PValue.num 10000), ("kernel", PValue.str "linear")],
    [("C", PValue.num 100000), ("kernel", PValue.str "linear")],
    [("C", PValue.num 1000000), ("kernel", PValue.str "linear")],
    [("C", PValue.num 10000000), ("kernel", PValue.str "linear")] ]

/-- Recorded mean_test_score array of the grid run (notebook output),
fixed-point at scale 10^12. -/
def notebookGridScores : List Int :=
  [985584530844, 957017352561, 986932256371, 980973238881,
   986932256371, 981150421585, 986932256371, 981150421585,
   972738260762, 972738260762, 972738260762, 972738260762]

/-- Recorded rank_test_score array of the grid run (notebook output). -/
def notebookGridRanks : List Nat :=
  [4, 12, 1, 7, 1, 5, 1, 5, 8, 8, 8, 8]

/-- Recorded best_params_ of the grid run (notebook output):
C = 10, gamma = 0.001, kernel = rbf, fixed-point at scale 10^4. -/
def notebookBestParams : Config :=
  [("C", PValue.num 100000), ("gamma", PValue.num 10), ("kernel", PValue.str "rbf")]

theorem insertByName_perm {β : Type} (p : String × β) (l : List (String × β)) :
    List.Perm (insertByName p l) (p :: l) := by
  induction l with
  | nil => simp [insertByName]
  | cons q rest ih =>
    by_cases h : nameLe p.1 q.1 = true
    · simp [insertByName, h]
    · simp only [insertByName, h, if_neg, Bool.false_eq_true, not_false_iff]
      exact (ih.cons q).trans (List.Perm.swap p q rest)

theorem sortByName_perm {β : Type} (l : List (String × β)) :
    List.Perm (sortByName l) l := by
  induction l with
  | nil => simp [sortByName]
  | cons p rest ih => exact (insertByName_perm p _).trans (ih.cons p)

theorem subGridCandidates_length (sg : SubGrid) :
    (subGridCandidates sg).length = (sg.map (fun p => p.2.length)).prod := by
  induction sg with
  | nil => rfl
  | cons p rest ih =>
    obtain ⟨n, vs⟩ := p
    simp [subGridCandidates, List.length_flatMap, Function.comp_def, ih,
      List.map_const, List.sum_replicate, smul_eq_mul]

theorem gridCandidates_length (g : ParamGrid) :
    (gridCandidates g).length =
      (g.map (fun sg => (sg.map (fun p => p.2.length)).prod)).sum := by
  unfold gridCandidates
  rw [List.length_flatMap]
  congr 1
  refine List.map_congr_left (fun sg _ => ?_)
  rw [Function.comp_apply, subGridCandidates_length]
  exact ((sortByName_perm sg).map (fun p => p.2.length)).prod_eq

theorem subGridCandidates_nodup (sg : SubGrid) (h : ∀ p ∈ sg, p.2.Nodup) :
    (subGridCandidates sg).Nodup := by
  induction sg with
  | nil => simp [subGridCandidates]
  | cons p rest ih =>
    obtain ⟨n, vs⟩ := p
    have hvs : vs.Nodup := h (n, vs) (List.mem_cons_self _ _)
    have hrest : (subGridCandidates rest).Nodup :=
      ih (fun q hq => h q (List.mem_cons_of_mem _ hq))
    simp only [subGridCandidates]
    rw [List.nodup_flatMap]
    constructor
    · intro v _
      exact hrest.map (fun c₁ c₂ hc => by injection hc)
    · refine hvs.imp (fun hvw => ?_)
      intro c hc₁ hc₂
      simp only [Function.onFun, List.mem_map] at hc₁ hc₂
      obtain ⟨c₁, _, rfl⟩ := hc₁
      obtain ⟨c₂, _, he⟩ := hc₂
      injection he with hpair _
      injection hpair with _ hval
      exact hvw hval.symm

theorem sortByName_nodup_vals (sg : SubGrid) (h : ∀ p ∈ sg, p.2.Nodup) :
    ∀ p ∈ sortByName sg, p.2.Nodup :=
  fun p hp => h p ((sortByName_perm sg).mem_iff.mp hp)

/-- Modelled from the spec: competition rank of one mean test score x within
the score column xs, one plus the number of strictly greater scores (higher is
better).  The engine behind rank_test_score is not in the repository; the tie
behaviour is fixed by the recorded rank arrays of the notebook, which show
equal scores receiving equal ranks. -/
def rankOf (xs : List Int) (x : Int) : Nat := 1 + xs.countP (fun y => x < y)

/-- Rank column of a ResultsTable: the rank of each score, in table order. -/
def rankList (xs : List Int) : List Nat := xs.map (rankOf xs)

/-- First index of the minimum of a list: the argmin, ties resolved to the
first occurrence, 0 on the empty list. -/
def argminFirst (l : List Nat) : Nat :=
  match l.min? with
  | some m => l.findIdx (fun r => r == m)
  | none => 0

/-- Modelled from the spec: the index of the BestResult, the argmin of the
rank column with ties resolved to the first occurrence (spec section 3). -/
def bestIndex (xs : List Int) : Nat := argminFirst (rankList xs)

theorem countP_lt_countP {α : Type} (p q : α → Bool) (l : List α)
    (hpq : ∀ y ∈ l, p y = true → q y = true) (x : α) (hx : x ∈ l)
    (hqx : q x = true) (hpx : p x = false) : l.countP p < l.countP q := by
  induction l with
  | nil => simp at hx
  | cons a l ih =>
    rcases List.mem_cons.mp hx with rfl | hx₂
    · rw [List.countP_cons, List.countP_cons, hqx, hpx]
      have hm := List.countP_mono_left
        (fun y (hy : y ∈ l) => hpq y (List.mem_cons_of_mem _ hy))
      simp only [Bool.false_eq_true, if_false, if_true]
      omega
    · have h1 := ih (fun y hy => hpq y (List.mem_cons_of_mem _ hy)) hx₂
      rw [List.countP_cons, List.countP_cons]
      have h2 : (if p a = true then 1 else 0) ≤ (if q a = true then 1 else 0) := by
        by_cases hpa : p a = true
        · rw [if_pos hpa, if_pos (hpq a (List.mem_cons_self _ _) hpa)]
        · rw [if_neg hpa]
          omega
      omega

theorem rankOf_lt_of_gt (xs : List Int) (a b : Int) (ha : a ∈ xs) (h : b < a) :
    rankOf xs a < rankOf xs b := by
  unfold rankOf
  have key : xs.countP (fun y => a < y) < xs.countP (fun y => b < y) := by
    refine countP_lt_countP _ _ xs ?_ a ha ?_ ?_
    · intro y _ hy
      simp only [decide_eq_true_eq] at hy ⊢
      exact lt_trans h hy
    · simp only [decide_eq_true_eq]
      exact h
    · simp
  omega

theorem one_le_rankOf (xs : List Int) (x : Int) : 1 ≤ rankOf xs x :=
  Nat.le_add_right 1 _

theorem exists_max (xs : List Int) (h : xs ≠ []) : ∃ a ∈ xs, ∀ b ∈ xs, b ≤ a := by
  induction xs with
  | nil => exact absurd rfl h
  | cons x l ih =>
    by_cases hl : l = []
    · subst hl
      exact ⟨x, List.mem_cons_self _ _, by simp⟩
    · rcases ih hl with ⟨a, ha, hmax⟩
      by_cases hxa : x ≤ a
      · refine ⟨a, List.mem_cons_of_mem _ ha, ?_⟩
        intro b hb
        rcases List.mem_cons.mp hb with rfl | hb₂
        · exact hxa
        · exact hmax b hb₂
      · refine ⟨x, List.mem_cons_self _ _, ?_⟩
        intro b hb
        rcases List.mem_cons.mp hb with rfl | hb₂
        · exact le_refl b
        · exact le_trans (hmax b hb₂) (le_of_not_le hxa)

theorem rankOf_max_eq_one (xs : List Int) (a : Int) (hmax : ∀ b ∈ xs, b ≤ a) :
    rankOf xs a = 1 := by
  unfold rankOf
  have hz : xs.countP (fun y => a < y) = 0 :=
    List.countP_eq_zero.mpr
      (fun y hy => by simpa using not_lt.mpr (hmax y hy))
  omega

theorem rankList_get? (xs : List Int) (i : Nat) :
    (rankList xs).get? i = (xs.get? i).map (rankOf xs) :=
  List.get?_map _ _ _

theorem rankList_min (xs : List Int) (h : xs ≠ []) : (rankList xs).min? = some 1 := by
  rcases exists_max xs h with ⟨a, ha, hmax⟩
  apply List.min?_eq_some_iff'.mpr
  constructor
  · have h1 : rankOf xs a ∈ rankList xs := List.mem_map_of_mem (rankOf xs) ha
    rwa [rankOf_max_eq_one xs a hmax] at h1
  · intro b hb
    rcases List.mem_map.mp hb with ⟨x, _, rfl⟩
    exact one_le_rankOf xs x

theorem findIdx_get?_of_exists {α : Type} (p : α → Bool) (l : List α)
    (h : ∃ x ∈ l, p x = true) :
    ∃ y, l.get? (l.findIdx p) = some y ∧ p y = true := by
  induction l with
  | nil => simp at h
  | cons a l ih =>
    by_cases hpa : p a = true
    · exact ⟨a, by simp [List.findIdx_cons, hpa], hpa⟩
    · obtain ⟨x, hx, hpx⟩ := h
      have hx₂ : x ∈ l := by
        rcases List.mem_cons.mp hx with rfl | h2
        · exact absurd hpx hpa
        · exact h2
      obtain ⟨y, hy, hpy⟩ := ih ⟨x, hx₂, hpx⟩
      refine ⟨y, ?_, hpy⟩
      rw [List.findIdx_cons]
      simp only [hpa, cond_false]
      simpa using hy

theorem findIdx_earlier_false {α : Type} (p : α → Bool) (l : List α) :
    ∀ j, j < l.findIdx p → ∀ y, l.get? j = some y → p y = false := by
  induction l with
  | nil =>
    intro j _ y hy
    simp at hy
  | cons a l ih =>
    intro j hj y hy
    rw [List.findIdx_cons] at hj
    by_cases hpa : p a = true
    · simp [hpa] at hj
    · simp only [hpa, cond_false] at hj
      cases j with
      | zero =>
        have ha : a = y := by simpa using hy
        subst ha
        cases hpb : p a with
        | false => rfl
        | true => exact absurd hpb hpa
      | succ j =>
        exact ih j (Nat.lt_of_succ_lt_succ hj) y (by simpa using hy)

theorem bestIndex_spec (xs : List Int) (h : xs ≠ []) :
    (rankList xs).get? (bestIndex xs) = some 1 ∧
      ∀ j < bestIndex xs, ∀ r, (rankList xs).get? j = some r → r ≠ 1 := by
  have hmin := rankList_min xs h
  have hone : (1 : Nat) ∈ rankList xs := (List.min?_eq_some_iff'.mp hmin).1
  have hbi : bestIndex xs = (rankList xs).findIdx (fun r => r == 1) := by
    unfold bestIndex argminFirst
    rw [hmin]
  rw [hbi]
  constructor
  · obtain ⟨y, hy, hpy⟩ :=
      findIdx_get?_of_exists (fun r => r == 1) (rankList xs) ⟨1, hone, by simp⟩
    have : y = 1 := by simpa using hpy
    rw [hy, this]
  · intro j hj r hr
    have := findIdx_earlier_false (fun r => r == 1) (rankList xs) j hj r hr
    simpa using this

theorem countP_gt_split (xs : List Int) (a b : Int) (h : b < a)
    (hgap : ∀ y ∈ xs, ¬(b < y ∧ y < a)) :
    xs.countP (fun y => b < y) =
      xs.countP (fun y => a < y) + xs.countP (fun y => y = a) := by
  induction xs with
  | nil => simp
  | cons z l ih =>
    have hz := hgap z (List.mem_cons_self _ _)
    have ihl := ih (fun y hy => hgap y (List.mem_cons_of_mem _ hy))
    rw [List.countP_cons, List.countP_cons, List.countP_cons]
    simp only [decide_eq_true_eq]
    by_cases h1 : a < z
    · have h2 : b < z := lt_trans h h1
      have h3 : ¬(z = a) := fun e => absurd h1 (by rw [e]; exact lt_irrefl a)
      rw [if_pos h2, if_pos h1, if_neg h3]
      omega
    · by_cases h2 : z = a
      · have h3 : b < z := by rw [h2]; exact h
        rw [if_pos h3, if_neg h1, if_pos h2]
        omega
      · have h4 : z < a := lt_of_le_of_ne (not_lt.mp h1) h2
        have h5 : ¬(b < z) := fun hbz => hz ⟨hbz, h4⟩
        rw [if_neg h5, if_neg h1, if_neg h2]
        omega

theorem rankOf_next (xs : List Int) (a b : Int) (h : b < a)
    (hgap : ∀ y ∈ xs, ¬(b < y ∧ y < a)) :
    rankOf xs b = rankOf xs a + xs.countP (fun y => y = a) := by
  unfold rankOf
  rw [countP_gt_split xs a b h hgap]
  omega

theorem rankList_eq_of_eq_score (xs : List Int) (i j : Nat) (a : Int)
    (hi : xs.get? i = some a) (hj : xs.get? j = some a) :
    (rankList xs).get? i = (rankList xs).get? j := by
  rw [rankList_get?, rankList_get?, hi, hj]

/-- Recorded mean_test_score array of the randomized run (notebook output),
fixed-point at scale 10^13. -/
def notebookRandomScores : List Int :=
  [209367845031, 209367845031, 4025922335750, 725820179991, 209367845031,
   9523873588550, 251636863296, 251636863296, 209367845031, 209367845031]

/-- Recorded rank_test_score array of the randomized run (notebook output). -/
def notebookRandomRanks : List Nat := [6, 6, 2, 3, 6, 1, 4, 4, 6, 6]

/-- Recorded cv_results_ params tuple of the randomized run (notebook output),
10 configurations in recorded order, bindings in the recorded key order
C, class_weight, gamma, kernel.  C and gamma fixed-point at scale 10^18. -/
def notebookRandomParams : List Config :=
  [ [("C", PValue.num 197438043166996950000), ("class_weight", PValue.null),
     ("gamma", PValue.num 66856652378888090), ("kernel", PValue.str "rbf")],
    [("C", PValue.num 66457135213559567000), ("class_weight", PValue.null),
     ("gamma", PValue.num 52735834620258396), ("kernel", PValue.str "rbf")],
    [("C", PValue.num 177348631844772230000), ("class_weight", PValue.null),
     ("gamma", PValue.num 12859019553229155), ("kernel", PValue.str "rbf")],
    [("C", PValue.num 246385773633352130000), ("class_weight", PValue.null),
     ("gamma", PValue.num 24434327856707762), ("kernel", PValue.str "rbf")],
    [("C", PValue.num 106142751130941490000), ("class_weight", PValue.str "balanced"),
     ("gamma", PValue.num 55239367053976862), ("kernel", PValue.str "rbf")],
    [("C", PValue.num 77662722386644120000), ("class_weight", PValue.str "balanced"),
     ("gamma", PValue.num 5068411787780897), ("kernel", PValue.str "rbf")],
    [("C", PValue.num 544707677205239970000), ("class_weight", PValue.str "balanced"),
     ("gamma", PValue.num 47295948666685128), ("kernel", PValue.str "rbf")],
    [("C", PValue.num 17176008353499572000), ("class_weight", PValue.str "balanced"),
     ("gamma", PValue.num 47877537276124066), ("kernel", PValue.str "rbf")],
    [("C", PValue.num 97301699633849807000), ("class_weight", PValue.null),
     ("gamma", PValue.num 65282190141343288), ("kernel", PValue.str "rbf")],
    [("C", PValue.num 5017021029395057700), ("class_weight", PValue.null),
     ("gamma", PValue.num 199371480313451980), ("kernel", PValue.str "rbf")] ]

/-- Failure kinds of the search core that the settled claims exercise
(spec section 7). -/
inductive SearchError where
  | invalidBudget : SearchError
deriving DecidableEq

/-- Modelled from the spec: the randomized-mode Candidate Generator (spec 4.2);
the engine behind RandomizedSearchCV is not in the repository.  The sampling
capability is abstracted as a function giving, for every iteration index and
declared parameter name, the independently drawn value of that parameter.  A
budget that is not a positive integer fails with the InvalidBudgetError of the
spec; no deduplication is applied to the drawn Configurations. -/
def randomizedCandidates (names : List String) (draw : Nat → String → PValue)
    (n : Int) : Except SearchError (List Config) :=
  if n ≤ 0 then Except.error SearchError.invalidBudget
  else Except.ok ((List.range n.toNat).map fun i => names.map fun p => (p, draw i p))

/-- Per-fold evaluation record of one (configuration, fold) pair
(spec section 3, FoldResult). -/
structure FoldResult where
  fitTime : ℚ
  scoreTime : ℚ
  trainScore : ℚ
  testScore : ℚ
deriving DecidableEq

/-- Mean and squared spread of a list of rationals.  The standard deviation of
the spec is represented by its square so every statistic stays rational; the
standard deviation is determined by this value. -/
structure Agg where
  mean : ℚ
  sqSpread : ℚ
deriving DecidableEq

/-- Mean of a list of rationals (0 on the empty list). -/
def meanOf (l : List ℚ) : ℚ := l.sum / l.length

/-- Population variance of a list of rationals, the square of the standard
deviation the spec stores. -/
def varOf (l : List ℚ) : ℚ := meanOf (l.map fun x => (x - meanOf l) ^ 2)

/-- Aggregate of one statistic across folds. -/
def aggOf (l : List ℚ) : Agg := ⟨meanOf l, varOf l⟩

/-- Aggregate statistics of one Configuration row of the ResultsTable:
mean/spread of fit time, score time, train score and test score across folds
(spec section 3, ResultsTable). -/
structure RowStats where
  fitTime : Agg
  scoreTime : Agg
  trainScore : Agg
  testScore : Agg
deriving DecidableEq

/-- Fold aggregation of the Search Coordinator (spec 4.3 step 3). -/
def aggregate (frs : List FoldResult) : RowStats :=
  ⟨aggOf (frs.map FoldResult.fitTime), aggOf (frs.map FoldResult.scoreTime),
   aggOf (frs.map FoldResult.trainScore), aggOf (frs.map FoldResult.testScore)⟩

/-- Search mode: exhaustive grid, or randomized over declared parameter names
with a computation budget. -/
inductive SearchMode where
  | grid : ParamGrid → SearchMode
  | randomized : List String → Nat → SearchMode

/-- Modelled from the spec: candidate production of the Search Coordinator;
the rng argument is the explicit randomness source of spec section 9 and is
consumed only in randomized mode. -/
def candidatesOf : SearchMode → (Nat → String → PValue) → List Config
  | SearchMode.grid g, _ => gridCandidates g
  | SearchMode.randomized names n, rng =>
      (List.range n).map fun i => names.map fun p => (p, rng i p)

/-- Modelled from the spec: the Search Coordinator (spec 4.3): evaluate every
candidate on each of the k folds with the caller-supplied evaluation
capability and aggregate the per-fold results into the ResultsTable rows. -/
def runSearch (m : SearchMode) (rng : Nat → String → PValue)
    (evalFold : Config → Nat → FoldResult) (k : Nat) :
    List (Config × RowStats) :=
  (candidatesOf m rng).map fun c =>
    (c, aggregate ((List.range k).map (evalFold c)))

/-- Error policy for per-candidate fit failures (spec 4.3 step 4). -/
inductive ErrorPolicy where
  | abort : ErrorPolicy
  | sentinel : ErrorPolicy
deriving DecidableEq

/-- Default error policy of the search invocations: the recorded GridSearchCV
and RandomizedSearchCV reprs in the notebook both show the abort setting
(error_score set to raising). -/
def defaultErrorPolicy : ErrorPolicy := ErrorPolicy.abort

/-- Modelled from the spec: per-candidate evaluation under an error policy
(spec 4.3 step 4, spec section 7).  Under abort, the first failure stops the
whole search and is propagated; under sentinel, a failed candidate is recorded
in the table with no score (the sentinel, excluded from ranking) and the later
candidates are still evaluated. -/
def evalWithPolicy {ε : Type} (pol : ErrorPolicy) (ev : Config → Except ε ℚ) :
    List Config → Except ε (List (Config × Option ℚ))
  | [] => Except.ok []
  | c :: rest =>
    match ev c with
    | Except.ok s => (evalWithPolicy pol ev rest).map (fun t => (c, some s) :: t)
    | Except.error e =>
      match pol with
      | ErrorPolicy.abort => Except.error e
      | ErrorPolicy.sentinel =>
          (evalWithPolicy pol ev rest).map (fun t => (c, none) :: t)

theorem abort_first_failure {ε : Type} (ev : Config → Except ε ℚ)
    (pre : List Config) (c : Config) (post : List Config) (e : ε)
    (hok : ∀ x ∈ pre, ∃ s, ev x = Except.ok s) (herr : ev c = Except.error e) :
    evalWithPolicy ErrorPolicy.abort ev (pre ++ c :: post) = Except.error e := by
  induction pre with
  | nil => simp [evalWithPolicy, herr]
  | cons a pre ih =>
    obtain ⟨s, hs⟩ := hok a (List.mem_cons_self _ _)
    have htail := ih (fun x hx => hok x (List.mem_cons_of_mem _ hx))
    simp [evalWithPolicy, hs, htail, Except.map]

theorem sentinel_records_all {ε : Type} (ev : Config → Except ε ℚ)
    (cands : List Config) :
    evalWithPolicy ErrorPolicy.sentinel ev cands =
      Except.ok (cands.map fun c => (c, (ev c).toOption)) := by
  induction cands with
  | nil => rfl
  | cons c rest ih =>
    cases h : ev c with
    | ok s => simp [evalWithPolicy, h, ih, Except.toOption, Except.map]
    | error e => simp [evalWithPolicy, h, ih, Except.toOption, Except.map]

/-- Fold sizes of the k-fold assignment on n samples (spec 4.3 step 1): the
first n mod k folds get one extra sample, the standard KFold layout the
notebook relies on with cv set to 5. -/
def foldSizes (n k : Nat) : List Nat :=
  (List.range k).map fun i => n / k + if i < n % k then 1 else 0

/-- Contiguous index blocks of the given sizes, starting at a given offset. -/
def blocksFrom : Nat → List Nat → List (List Nat)
  | _, [] => []
  | s, sz :: rest => List.range' s sz :: blocksFrom (s + sz) rest

/-- Modelled from the spec: the fixed k-fold test-index partition of the n
training samples (spec 4.3 step 1); a pure function of n and k, hence
reproducible across re-runs of one search. -/
def kfold (n k : Nat) : List (List Nat) := blocksFrom 0 (foldSizes n k)

/-- Modelled from the spec: cross-validated scoring of the candidates: the
fold partition is computed once per search and every candidate is scored on
those same folds (spec 4.3 step 1). -/
def runCV (n k : Nat) (ev : Config → List Nat → ℚ) (cands : List Config) :
    List (Config × List ℚ) :=
  (fun folds => cands.map fun c => (c, folds.map (ev c))) (kfold n k)

theorem sum_map_add {α : Type} (l : List α) (f g : α → Nat) :
    (l.map fun x => f x + g x).sum = (l.map f).sum + (l.map g).sum := by
  induction l with
  | nil => rfl
  | cons a l ih =>
    simp only [List.map_cons, List.sum_cons, ih]
    omega

theorem sum_range_ite (k m : Nat) :
    ((List.range k).map fun i => if i < m then 1 else 0).sum = min m k := by
  induction k with
  | zero => simp
  | succ k ih =>
    rw [List.range_succ, List.map_append, List.sum_append, ih]
    by_cases h : k < m
    · rw [List.map_cons, if_pos h]
      simp only [List.map_nil, List.sum_cons, List.sum_nil]
      omega
    · rw [List.map_cons, if_neg h]
      simp only [List.map_nil, List.sum_cons, List.sum_nil]
      omega

theorem foldSizes_length (n k : Nat) : (foldSizes n k).length = k := by
  simp [foldSizes]

theorem foldSizes_sum (n k : Nat) (hk : 0 < k) : (foldSizes n k).sum = n := by
  unfold foldSizes
  rw [sum_map_add (List.range k) (fun _ => n / k) (fun i => if i < n % k then 1 else 0)]
  rw [List.map_const', List.sum_replicate, List.length_range, smul_eq_mul, sum_range_ite]
  rw [min_eq_left (le_of_lt (Nat.mod_lt n hk))]
  exact Nat.div_add_mod n k

theorem blocksFrom_length (s : Nat) (szs : List Nat) :
    (blocksFrom s szs).length = szs.length := by
  induction szs generalizing s with
  | nil => rfl
  | cons sz rest ih => simp [blocksFrom, ih]

theorem blocksFrom_flatten (s : Nat) (szs : List Nat) :
    (blocksFrom s szs).flatten = List.range' s szs.sum := by
  induction szs generalizing s with
  | nil => simp [blocksFrom]
  | cons sz rest ih =>
    simp only [blocksFrom, List.flatten_cons, ih, List.sum_cons]
    rw [Nat.add_comm sz rest.sum]
    exact List.range'_append_1 s sz rest.sum

theorem mem_range'_bounds (s n x : Nat) (hx : x ∈ List.range' s n) :
    s ≤ x ∧ x < s + n := by
  obtain ⟨i, hi, rfl⟩ := List.mem_range'.mp hx
  omega

theorem blocksFrom_mem_ge (s : Nat) (szs : List Nat) :
    ∀ b ∈ blocksFrom s szs, ∀ x ∈ b, s ≤ x := by
  induction szs generalizing s with
  | nil => simp [blocksFrom]
  | cons sz rest ih =>
    intro b hb x hx
    rcases List.mem_cons.mp hb with rfl | hb₂
    · exact (mem_range'_bounds s sz x hx).1
    · exact le_trans (Nat.le_add_right s sz) (ih (s + sz) b hb₂ x hx)

theorem blocksFrom_pairwise_disjoint (s : Nat) (szs : List Nat) :
    (blocksFrom s szs).Pairwise List.Disjoint := by
  induction szs generalizing s with
  | nil => simp [blocksFrom]
  | cons sz rest ih =>
    rw [blocksFrom, List.pairwise_cons]
    refine ⟨?_, ih (s + sz)⟩
    intro b hb x hx₁ hx₂
    have h1 : x < s + sz := (mem_range'_bounds s sz x hx₁).2
    have h2 : s + sz ≤ x := blocksFrom_mem_ge (s + sz) rest b hb x hx₂
    omega

theorem subGridCandidates_get? (n : String) (vs : List PValue) (sg : SubGrid) :
    ∀ (i j : Nat), i < vs.length → j < (subGridCandidates sg).length →
    ∃ v c, vs.get? i = some v ∧ (subGridCandidates sg).get? j = some c ∧
      (subGridCandidates ((n, vs) :: sg)).get?
        (i * (subGridCandidates sg).length + j) = some ((n, v) :: c) := by
  induction vs with
  | nil =>
    intro i j hi _
    exact absurd hi (Nat.not_lt_zero i)
  | cons v vs ih =>
    intro i j hi hj
    cases i with
    | zero =>
      obtain ⟨c, hc⟩ : ∃ c, (subGridCandidates sg).get? j = some c :=
        ⟨(subGridCandidates sg).get ⟨j, hj⟩, List.get?_eq_get hj⟩
      refine ⟨v, c, rfl, hc, ?_⟩
      show ((v :: vs).flatMap fun w =>
        (subGridCandidates sg).map fun d => (n, w) :: d).get?
          (0 * (subGridCandidates sg).length + j) = some ((n, v) :: c)
      rw [List.flatMap_cons, Nat.zero_mul, Nat.zero_add]
      rw [List.get?_append (by simpa using hj)]
      rw [List.get?_map, hc]
      rfl
    | succ i =>
      obtain ⟨w, c, hw, hc, hrec⟩ := ih i j (Nat.lt_of_succ_lt_succ hi) hj
      refine ⟨w, c, hw, hc, ?_⟩
      show ((v :: vs).flatMap fun w =>
        (subGridCandidates sg).map fun d => (n, w) :: d).get?
          ((i + 1) * (subGridCandidates sg).length + j) = some ((n, w) :: c)
      rw [List.flatMap_cons]
      have harith : (i + 1) * (subGridCandidates sg).length + j =
          ((subGridCandidates sg).map fun d => (n, v) :: d).length +
            (i * (subGridCandidates sg).length + j) := by
        rw [List.length_map]
        ring
      rw [harith, List.get?_append_right (Nat.le_add_right _ _), Nat.add_sub_cancel_left]
      exact hrec

theorem gridCandidates_append (g₁ g₂ : ParamGrid) :
    gridCandidates (g₁ ++ g₂) = gridCandidates g₁ ++ gridCandidates g₂ := by
  unfold gridCandidates
  exact List.flatMap_append g₁ g₂ _

/-- Claim C1, counterexample: a grid of two identical sub-grids, each of whose
value lists is duplicate-free, produces two identical Configurations, so in
general the produced Configurations are not all unique in declared-parameter
content even when no value sequence contains duplicates. -/
theorem claim1_cex :
    (∀ sg ∈ ([[("a", [PValue.num 0])], [("a", [PValue.num 0])]] : ParamGrid),
      ∀ p ∈ sg, p.2.Nodup) ∧
    ¬ (gridCandidates [[("a", [PValue.num 0])], [("a", [PValue.num 0])]]).Nodup := by
  decide

/-- Claim C1, amended: the Candidate Generator produces exactly the sum over
sub-grids of the product of value-sequence lengths (12 on the notebook grid),
and within each single sub-grid the Configurations are pairwise distinct when
no value sequence of that sub-grid contains duplicates; uniqueness across
distinct sub-grids is not guaranteed. -/
theorem claim1_grid_count_and_per_subgrid_unique :
    (∀ g : ParamGrid, (gridCandidates g).length =
        (g.map fun sg => (sg.map fun p => p.2.length).prod).sum) ∧
    (∀ sg : SubGrid, (∀ p ∈ sg, p.2.Nodup) →
        (subGridCandidates (sortByName sg)).Nodup) ∧
    (gridCandidates tunedParameters).length = 12 := by
  refine ⟨gridCandidates_length, ?_, by decide⟩
  intro sg h
  exact subGridCandidates_nodup _ (sortByName_nodup_vals sg h)

/-- Claim C1, witness: the per-sub-grid uniqueness at the first notebook
sub-grid parameter with its two distinct gamma values. -/
theorem claim1_witness :
    (subGridCandidates (sortByName [("gamma", [PValue.num 10, PValue.num 1])])).Nodup :=
  claim1_grid_count_and_per_subgrid_unique.2.1
    [("gamma", [PValue.num 10, PValue.num 1])] (by decide)

/-- Claim C2, counterexample: on the notebook grid, declared order is kernel,
gamma, C, so last-declared-fastest predicts that the second Configuration has
C = 10 and gamma = 0.001; the recorded second Configuration has C = 1 and
gamma = 0.0001 (configurations compared in canonical name-sorted form). -/
theorem claim2_cex :
    ((gridCandidatesDecl tunedParameters).map canonConfig).get? 1 ≠
      (notebookGridParams.map canonConfig).get? 1 := by decide

/-- Claim C2, amended: sub-grid blocks are concatenated in declaration order,
and within each sub-grid the cross-product is enumerated row-major over the
parameters in ascending name order, the greatest-named parameter varying
fastest; on the notebook grid this reproduces the recorded params tuple
exactly (gamma varies faster than C, not the reverse). -/
theorem claim2_grid_order :
    gridCandidates tunedParameters = notebookGridParams ∧
    (∀ g₁ g₂ : ParamGrid,
        gridCandidates (g₁ ++ g₂) = gridCandidates g₁ ++ gridCandidates g₂) ∧
    (∀ (n : String) (vs : List PValue) (sg : SubGrid) (i j : Nat),
        i < vs.length → j < (subGridCandidates sg).length →
        ∃ v c, vs.get? i = some v ∧ (subGridCandidates sg).get? j = some c ∧
          (subGridCandidates ((n, vs) :: sg)).get?
            (i * (subGridCandidates sg).length + j) = some ((n, v) :: c)) :=
  ⟨by decide, gridCandidates_append,
   fun n vs sg i j hi hj => subGridCandidates_get? n vs sg i j hi hj⟩

/-- Claim C2, witness: row-major indexing at the gamma/kernel tail of the
first notebook sub-grid, index 1 of gamma with the single kernel value. -/
theorem claim2_witness :
    ∃ v c, [PValue.num 10, PValue.num 1].get? 1 = some v ∧
      (subGridCandidates [("kernel", [PValue.str "rbf"])]).get? 0 = some c ∧
      (subGridCandidates [("gamma", [PValue.num 10, PValue.num 1]),
          ("kernel", [PValue.str "rbf"])]).get?
        (1 * (subGridCandidates [("kernel", [PValue.str "rbf"])]).length + 0) =
          some (("gamma", v) :: c) := by
  obtain ⟨v, c, h1, h2, h3⟩ :=
    claim2_grid_order.2.2 "gamma" [PValue.num 10, PValue.num 1]
      [("kernel", [PValue.str "rbf"])] 1 0 (by decide) (by decide)
  exact ⟨v, c, h1, h2, h3⟩

/-- Claim C3: the randomized Candidate Generator with a positive integer
budget N produces exactly N Configurations, each binding exactly the declared
parameter names in order, with no deduplication (the count is N for every
draw capability, including constant ones); a non-positive budget fails with
InvalidBudgetError; the recorded randomized run of the notebook holds 10
candidates. -/
theorem claim3_randomized_budget :
    (∀ (names : List String) (draw : Nat → String → PValue) (n : Int), 0 < n →
      ∃ l, randomizedCandidates names draw n = Except.ok l ∧
        l.length = n.toNat ∧ ∀ c ∈ l, c.map Prod.fst = names) ∧
    (∀ (names : List String) (draw : Nat → String → PValue) (n : Int), n ≤ 0 →
      randomizedCandidates names draw n = Except.error SearchError.invalidBudget) ∧
    notebookRandomParams.length = 10 := by
  refine ⟨?_, ?_, by decide⟩
  · intro names draw n hn
    refine ⟨(List.range n.toNat).map fun i => names.map fun p => (p, draw i p), ?_, ?_, ?_⟩
    · unfold randomizedCandidates
      rw [if_neg (not_le.mpr hn)]
    · simp
    · intro c hc
      obtain ⟨i, _, rfl⟩ := List.mem_map.mp hc
      simp [Function.comp_def]
  · intro names draw n hn
    unfold randomizedCandidates
    rw [if_pos hn]

/-- Claim C3, witness: budget 10 with three declared names and a constant
draw capability yields exactly 10 configurations over those names. -/
theorem claim3_witness :
    ∃ l, randomizedCandidates ["C", "gamma", "kernel"] (fun _ _ => PValue.num 0) 10 =
        Except.ok l ∧ l.length = (10 : Int).toNat ∧
      ∀ c ∈ l, c.map Prod.fst = ["C", "gamma", "kernel"] :=
  claim3_randomized_budget.1 ["C", "gamma", "kernel"] (fun _ _ => PValue.num 0) 10
    (by decide)

/-- Claim C4: in one ResultsTable, a Configuration whose mean test score is
strictly greater than that of another receives a numerically smaller rank
(higher-is-better direction). -/
theorem claim4_rank_strict_mono :
    ∀ (xs : List Int) (i j : Nat) (a b : Int), xs.get? i = some a →
      xs.get? j = some b → b < a →
      ∃ ri rj, (rankList xs).get? i = some ri ∧ (rankList xs).get? j = some rj ∧
        ri < rj := by
  intro xs i j a b hi hj hba
  refine ⟨rankOf xs a, rankOf xs b, ?_, ?_, ?_⟩
  · rw [rankList_get?, hi]; rfl
  · rw [rankList_get?, hj]; rfl
  · exact rankOf_lt_of_gt xs a b (List.get?_mem hi) hba

/-- Claim C4, witness: on the recorded grid scores, entry 2 scores strictly
above entry 0 and ranks strictly below it. -/
theorem claim4_witness :
    ∃ ri rj, (rankList notebookGridScores).get? 2 = some ri ∧
      (rankList notebookGridScores).get? 0 = some rj ∧ ri < rj :=
  claim4_rank_strict_mono notebookGridScores 2 0 986932256371 985584530844
    (by decide) (by decide) (by decide)

/-- Claim C5, counterexample: the recorded grid rank array assigns rank 1 to
both entry 2 and entry 4, so ranks in one ResultsTable are not all distinct
and ties are not broken in favour of the earlier Configuration. -/
theorem claim5_cex :
    notebookGridRanks.get? 2 = some 1 ∧ notebookGridRanks.get? 4 = some 1 ∧
      ¬ notebookGridRanks.Nodup := by decide

/-- Claim C5, amended: Configurations with equal mean test score receive equal
ranks (competition ranking, ranks not necessarily distinct); the model
reproduces both recorded rank arrays of the notebook. -/
theorem claim5_ties_equal_rank :
    (∀ (xs : List Int) (i j : Nat) (a : Int), xs.get? i = some a →
        xs.get? j = some a → (rankList xs).get? i = (rankList xs).get? j) ∧
    rankList notebookGridScores = notebookGridRanks ∧
    rankList notebookRandomScores = notebookRandomRanks :=
  ⟨fun xs i j a hi hj => rankList_eq_of_eq_score xs i j a hi hj,
   by decide, by decide⟩

/-- Claim C5, witness: the tied entries 2 and 4 of the recorded grid scores
receive the same rank. -/
theorem claim5_witness :
    (rankList notebookGridScores).get? 2 = (rankList notebookGridScores).get? 4 :=
  claim5_ties_equal_rank.1 notebookGridScores 2 4 986932256371 (by decide) (by decide)

/-- Claim C6: the BestResult index always carries rank 1 and no earlier index
does, so among rank-1 ties the first in generation order wins; on the notebook
grid run the winner is index 2, whose Configuration is the recorded
best_params_, among three rank-1 candidates. -/
theorem claim6_best_first_rank_one :
    (∀ xs : List Int, xs ≠ [] →
        (rankList xs).get? (bestIndex xs) = some 1 ∧
        ∀ j < bestIndex xs, ∀ r, (rankList xs).get? j = some r → r ≠ 1) ∧
    bestIndex notebookGridScores = 2 ∧
    notebookGridParams.get? 2 = some notebookBestParams ∧
    (rankList notebookGridScores).countP (fun r => r == 1) = 3 :=
  ⟨fun xs h => bestIndex_spec xs h, by decide, by decide, by decide⟩

/-- Claim C6, witness: the general part evaluated on the recorded grid
scores. -/
theorem claim6_witness :
    (rankList notebookGridScores).get? (bestIndex notebookGridScores) = some 1 ∧
      ∀ j < bestIndex notebookGridScores, ∀ r,
        (rankList notebookGridScores).get? j = some r → r ≠ 1 :=
  claim6_best_first_rank_one.1 notebookGridScores (by decide)

/-- Claim C7: a grid search is deterministic: the ResultsTable, every
aggregate statistic included, does not depend on the randomness source, so two
runs with identical inputs yield identical tables. -/
theorem claim7_grid_idempotent :
    ∀ (g : ParamGrid) (rng₁ rng₂ : Nat → String → PValue)
      (evalFold : Config → Nat → FoldResult) (k : Nat),
      runSearch (SearchMode.grid g) rng₁ evalFold k =
        runSearch (SearchMode.grid g) rng₂ evalFold k :=
  fun _ _ _ _ _ => rfl

/-- Claim C8: the default error policy is abort; under abort the first
failing candidate aborts the search with that error, with the candidates after
it never influencing the outcome; under the opt-in sentinel policy every
candidate, failed ones included, is recorded in the table (failures with the
sentinel no-score marker), so no failure is silently dropped. -/
theorem claim8_error_policy :
    defaultErrorPolicy = ErrorPolicy.abort ∧
    (∀ (ε : Type) (ev : Config → Except ε ℚ) (pre : List Config) (c : Config)
        (post : List Config) (e : ε), (∀ x ∈ pre, ∃ s, ev x = Except.ok s) →
        ev c = Except.error e →
        evalWithPolicy ErrorPolicy.abort ev (pre ++ c :: post) = Except.error e) ∧
    (∀ (ε : Type) (ev : Config → Except ε ℚ) (cands : List Config),
        evalWithPolicy ErrorPolicy.sentinel ev cands =
          Except.ok (cands.map fun c => (c, (ev c).toOption))) :=
  ⟨rfl,
   fun _ ev pre c post e hok herr => abort_first_failure ev pre c post e hok herr,
   fun _ ev cands => sentinel_records_all ev cands⟩

/-- Claim C8, witness: with one succeeding candidate, then one failing
candidate, then one more candidate, the abort policy propagates the failure. -/
theorem claim8_witness :
    evalWithPolicy ErrorPolicy.abort
        (fun cfg => if cfg = [] then Except.error "fit failure" else Except.ok (0 : ℚ))
        ([[("kernel", PValue.str "linear")]] ++ [] :: [[("kernel", PValue.str "rbf")]]) =
      Except.error "fit failure" :=
  claim8_error_policy.2.1 String _ [[("kernel", PValue.str "linear")]] []
    [[("kernel", PValue.str "rbf")]] "fit failure"
    (fun x hx => by
      rcases List.mem_cons.mp hx with rfl | h
      · exact ⟨0, rfl⟩
      · simp at h)
    rfl

/-- Claim C9: the k-fold partition is a pure function of the sample count and
k, with exactly k folds that are pairwise disjoint and jointly cover all n
sample indices, and the Coordinator scores every candidate on that same single
partition, fold for fold. -/
theorem claim9_folds_fixed_shared :
    ∀ (n k : Nat), 0 < k →
      (kfold n k).length = k ∧
      (kfold n k).flatten = List.range n ∧
      (kfold n k).Pairwise List.Disjoint ∧
      ∀ (ev : Config → List Nat → ℚ) (cands : List Config),
        runCV n k ev cands = cands.map fun c => (c, (kfold n k).map (ev c)) := by
  intro n k hk
  refine ⟨?_, ?_, blocksFrom_pairwise_disjoint 0 (foldSizes n k), fun _ _ => rfl⟩
  · rw [kfold, blocksFrom_length, foldSizes_length]
  · rw [kfold, blocksFrom_flatten, foldSizes_sum n k hk, List.range_eq_range']

/-- Claim C9, witness: the partition facts at n = 7 samples and k = 3
folds. -/
theorem claim9_witness :
    (kfold 7 3).length = 3 ∧ (kfold 7 3).flatten = List.range 7 ∧
      (kfold 7 3).Pairwise List.Disjoint :=
  ⟨(claim9_folds_fixed_shared 7 3 (by decide)).1,
   (claim9_folds_fixed_shared 7 3 (by decide)).2.1,
   (claim9_folds_fixed_shared 7 3 (by decide)).2.2.1⟩

/-- Claim C10: rank assignment is competition-style: the model whose rank is
one plus the number of strictly greater scores reproduces the recorded grid
rank array exactly; positionally every table row carries that rank; and after
a group of t Configurations tied at the score just above, the next-lower score
receives the tied rank plus t. -/
theorem claim10_competition_rank :
    rankList notebookGridScores = notebookGridRanks ∧
    (∀ (xs : List Int) (i : Nat) (a : Int), xs.get? i = some a →
        (rankList xs).get? i = some (1 + xs.countP (fun y => a < y))) ∧
    (∀ (xs : List Int) (a b : Int), b < a → (∀ y ∈ xs, ¬(b < y ∧ y < a)) →
        rankOf xs b = rankOf xs a + xs.countP (fun y => y = a)) :=
  ⟨by decide,
   fun xs i a hi => by rw [rankList_get?, hi]; rfl,
   fun xs a b hba hgap => rankOf_next xs a b hba hgap⟩

/-- Claim C10, witness: on the recorded grid scores, the score below the
two-way tie at rank 5 receives rank 7 = 5 + 2. -/
theorem claim10_witness :
    rankOf notebookGridScores 980973238881 =
      rankOf notebookGridScores 981150421585 +
        notebookGridScores.countP (fun y => y = 981150421585) :=
  claim10_competition_rank.2.2 notebookGridScores 981150421585 980973238881
    (by decide) (by decide)

end HyperSearch
